import Mathlib

/-!
Verification development for the qopensearch library: a shallow embedding of
`OpenSearchEngine` (template expansion, URL construction, suggestion requests)
and `OpenSearchReader` (the OpenSearch description document reader), together
with theorems settling the specification claims.

Qt strings are modelled as Lean `String` (a wrapper around `List Char`);
the pull-based XML stream is modelled as a list of structural tokens.
Loops that are not structurally recursive carry an explicit fuel argument;
every loop iteration consumes at least one list element, so fuel equal to
the length of the input list never runs out, and the wrappers pass exactly
that amount.
-/

namespace QOpenSearch

/-- Model of `QString::replace(before, after)` on character lists: replace every
occurrence of `pat`, scanning left to right and continuing after the inserted
replacement (the replacement text is not rescanned).  The fuel argument is
decremented once per examined position; callers pass the length of the list,
which is always sufficient because each step consumes at least one character.
An empty pattern performs no replacement (the engine never uses one). -/
def replaceAllFuel : Nat → List Char → List Char → List Char → List Char
  | 0, _, _, l => l
  | fuel + 1, pat, rep, l =>
    match l with
    | [] => []
    | c :: rest =>
      if pat ≠ [] ∧ pat.isPrefixOf (c :: rest) then
        rep ++ replaceAllFuel fuel pat rep ((c :: rest).drop pat.length)
      else
        c :: replaceAllFuel fuel pat rep rest

/-- Model of `QString::replace(before, after)`. -/
def replaceAll (s pat rep : String) : String :=
  ⟨replaceAllFuel s.data.length pat.data rep.data s.data⟩

/-- Split a character list at the first closing brace, returning the characters
before it and the characters after it. -/
def splitAtRBrace : List Char → Option (List Char × List Char)
  | [] => none
  | c :: rest =>
    if c = '\x7d' then some ([], rest)
    else
      match splitAtRBrace rest with
      | some (content, after) => some (c :: content, after)
      | none => none

/-- Whether the text between a pair of braces matches the interior of the
pattern `([^\x7d]*:|)source??`: an optional prefix ending in a colon, then the
literal `source`, then an optional question mark. -/
def sourceContentMatch (c : List Char) : Bool :=
  let c1 := if c.getLast? = some '?' then c.dropLast else c
  if ("source".data).isSuffixOf c1 then
    let p := c1.take (c1.length - 6)
    decide (p = [] ∨ p.getLast? = some ':')
  else false

/-- Model of `QString::replace(QRegExp("..."), after)` for the engine's
`source` placeholder pattern: a brace-wrapped token whose interior is an
optional prefix ending in a colon, then `source`, then an optional `?`.
A match always extends to the first closing brace after its opening brace,
since neither the interior nor the literal tail may contain one; scanning is
leftmost-first and continues after the inserted replacement. -/
def replaceSourceFuel : Nat → List Char → List Char → List Char
  | 0, _, l => l
  | fuel + 1, rep, l =>
    match l with
    | [] => []
    | c :: rest =>
      if c = '\x7b' then
        match splitAtRBrace rest with
        | some (content, after) =>
          if sourceContentMatch content then rep ++ replaceSourceFuel fuel rep after
          else c :: replaceSourceFuel fuel rep rest
        | none => c :: replaceSourceFuel fuel rep rest
      else c :: replaceSourceFuel fuel rep rest

/-- Model of the regular-expression replacement step of `parseTemplate`. -/
def replaceSource (s rep : String) : String :=
  ⟨replaceSourceFuel s.data.length rep.data s.data⟩

/-- Decides that a character list contains no match of the `source` placeholder
pattern at any position. -/
def noSourceTok : List Char → Bool
  | [] => true
  | c :: rest =>
    if c = '\x7b' then
      match splitAtRBrace rest with
      | some (content, _) => !sourceContentMatch content && noSourceTok rest
      | none => noSourceTok rest
    else noSourceTok rest

/-- UTF-8 bytes (as natural numbers) of a character, as produced by
`QString::toUtf8`. -/
def utf8Bytes (c : Char) : List Nat :=
  let n := c.toNat
  if n < 0x80 then [n]
  else if n < 0x800 then [0xC0 + n / 0x40, 0x80 + n % 0x40]
  else if n < 0x10000 then
    [0xE0 + n / 0x1000, 0x80 + (n / 0x40) % 0x40, 0x80 + n % 0x40]
  else
    [0xF0 + n / 0x40000, 0x80 + (n / 0x1000) % 0x40, 0x80 + (n / 0x40) % 0x40,
      0x80 + n % 0x40]

/-- Uppercase hexadecimal digit, as used by `QUrl::toPercentEncoding`. -/
def hexDigit (n : Nat) : Char :=
  if n < 10 then Char.ofNat (48 + n) else Char.ofNat (55 + n)

/-- Whether a character is left unencoded by `QUrl::toPercentEncoding` with
default arguments (unreserved characters of RFC 3986). -/
def isUnreserved (c : Char) : Bool :=
  c.isAlphanum || c = '-' || c = '.' || c = '_' || c = '~'

/-- Percent encoding of a single character. -/
def encChar (c : Char) : List Char :=
  if isUnreserved c then [c]
  else (utf8Bytes c).flatMap (fun b => ['%', hexDigit (b / 16), hexDigit (b % 16)])

/-- Model of `QUrl::toPercentEncoding` with default arguments. -/
def percentEncode (s : String) : String :=
  ⟨s.data.flatMap encChar⟩

/-- Common body of `OpenSearchEngine::parseTemplate`, with the locale name and
application name passed explicitly (the C++ reads them from process-wide
configuration) and the text substituted for `searchTerms` abstracted: the
engine's two library variants pass the raw and the percent-encoded search term
respectively. -/
def parseTemplateWith (lang appName repl searchTemplate : String) : String :=
  let language := replaceAll lang "_" "-"
  replaceAll
    (replaceSource
      (replaceAll
        (replaceAll
          (replaceAll
            (replaceAll
              (replaceAll
                (replaceAll searchTemplate "{count}" "20")
                "{startIndex}" "0")
              "{startPage}" "0")
            "{language}" language)
          "{inputEncoding}" "UTF-8")
        "{outputEncoding}" "UTF-8")
      appName)
    "{searchTerms}" repl

/-- Model of `OpenSearchEngine::parseTemplate` in the variant that substitutes
the search term verbatim. -/
def parseTemplate (lang appName searchTerm searchTemplate : String) : String :=
  parseTemplateWith lang appName searchTerm searchTemplate

/-- Model of `OpenSearchEngine::parseTemplate` in the variant that substitutes
the percent-encoded search term (used by the URL constructors). -/
def parseTemplateEnc (lang appName searchTerm searchTemplate : String) : String :=
  parseTemplateWith lang appName (percentEncode searchTerm) searchTemplate

/-- The data fields of `OpenSearchEngine` (the `OpenSearchEnginePrivate`
value fields), with the constructor's defaults. -/
structure OpenSearchEngine where
  name : String := ""
  description : String := ""
  imageUrl : String := ""
  tags : List String := []
  searchUrlTemplate : String := ""
  suggestionsUrlTemplate : String := ""
  searchParameters : List (String × String) := []
  suggestionsParameters : List (String × String) := []
  searchMethod : String := "get"
  suggestionsMethod : String := "get"
deriving DecidableEq

/-- A default-constructed engine. -/
def mkEngine : OpenSearchEngine := {}

/-- Keys of the `requestMethods` map populated in the engine constructor. -/
def requestMethods : List String := ["get", "post"]

/-- Model of `OpenSearchEngine::setName`. -/
def setName (e : OpenSearchEngine) (v : String) : OpenSearchEngine :=
  { e with name := v }

/-- Model of `OpenSearchEngine::setDescription`. -/
def setDescription (e : OpenSearchEngine) (v : String) : OpenSearchEngine :=
  { e with description := v }

/-- Model of `OpenSearchEngine::setImageUrl`. -/
def setImageUrl (e : OpenSearchEngine) (v : String) : OpenSearchEngine :=
  { e with imageUrl := v }

/-- Model of `OpenSearchEngine::setTags`. -/
def setTags (e : OpenSearchEngine) (v : List String) : OpenSearchEngine :=
  { e with tags := v }

/-- Model of `OpenSearchEngine::setSearchUrlTemplate`. -/
def setSearchUrlTemplate (e : OpenSearchEngine) (v : String) : OpenSearchEngine :=
  { e with searchUrlTemplate := v }

/-- Model of `OpenSearchEngine::setSuggestionsUrlTemplate`. -/
def setSuggestionsUrlTemplate (e : OpenSearchEngine) (v : String) : OpenSearchEngine :=
  { e with suggestionsUrlTemplate := v }

/-- Model of `OpenSearchEngine::setSearchParameters`. -/
def setSearchParameters (e : OpenSearchEngine) (v : List (String × String)) :
    OpenSearchEngine :=
  { e with searchParameters := v }

/-- Model of `OpenSearchEngine::setSuggestionsParameters`. -/
def setSuggestionsParameters (e : OpenSearchEngine) (v : List (String × String)) :
    OpenSearchEngine :=
  { e with suggestionsParameters := v }

/-- Lowercasing of one character (`QString::toLower`, restricted to ASCII,
which covers the recognized method names). -/
def lowerChar (c : Char) : Char :=
  if 'A' ≤ c ∧ c ≤ 'Z' then Char.ofNat (c.toNat + 32) else c

/-- Model of `QString::toLower` (restricted to ASCII). -/
def toLowerQ (s : String) : String :=
  ⟨s.data.map lowerChar⟩

/-- Model of `OpenSearchEngine::setSearchMethod`: lowercase the argument and
update only when it is a key of `requestMethods`. -/
def setSearchMethod (e : OpenSearchEngine) (method : String) : OpenSearchEngine :=
  if toLowerQ method ∈ requestMethods then { e with searchMethod := toLowerQ method }
  else e

/-- Model of `OpenSearchEngine::setSuggestionsMethod`. -/
def setSuggestionsMethod (e : OpenSearchEngine) (method : String) : OpenSearchEngine :=
  if toLowerQ method ∈ requestMethods then
    { e with suggestionsMethod := toLowerQ method }
  else e

/-- Model of `OpenSearchEngine::isValid`. -/
def isValid (e : OpenSearchEngine) : Bool :=
  e.name ≠ "" && e.searchUrlTemplate ≠ ""

/-- Model of `OpenSearchEngine::providesSuggestions`. -/
def providesSuggestions (e : OpenSearchEngine) : Bool :=
  e.suggestionsUrlTemplate ≠ ""

/-- Model of a `QUrl` produced by `QUrl::fromEncoded` followed by a sequence of
`addQueryItem` calls: the expanded base template, plus the appended query
items in order. -/
structure Url where
  base : String
  query : List (String × String)
deriving DecidableEq

/-- Model of `OpenSearchEngine::searchUrl`: `none` models the empty `QUrl()`;
otherwise the expanded template, with the stored parameters appended as query
items (values expanded against the same term) unless the method is `post`. -/
def searchUrl (lang appName : String) (e : OpenSearchEngine) (searchTerm : String) :
    Option Url :=
  if e.searchUrlTemplate = "" then none
  else some
    { base := parseTemplateEnc lang appName searchTerm e.searchUrlTemplate
      query :=
        if e.searchMethod ≠ "post" then
          e.searchParameters.map
            (fun p => (p.1, parseTemplateEnc lang appName searchTerm p.2))
        else [] }

/-- Model of `OpenSearchEngine::suggestionsUrl`. -/
def suggestionsUrl (lang appName : String) (e : OpenSearchEngine)
    (searchTerm : String) : Option Url :=
  if e.suggestionsUrlTemplate = "" then none
  else some
    { base := parseTemplateEnc lang appName searchTerm e.suggestionsUrlTemplate
      query :=
        if e.suggestionsMethod ≠ "post" then
          e.suggestionsParameters.map
            (fun p => (p.1, parseTemplateEnc lang appName searchTerm p.2))
        else [] }

/-- Model of `QStringList::join("&")`. -/
def joinAmp : List String → String
  | [] => ""
  | [s] => s
  | s :: rest => s ++ "&" ++ joinAmp rest

/-- The POST request body built by `requestSuggestions` for a post-method
suggestions record: the stored pairs serialized as `key=value`, joined with
an ampersand. -/
def suggestionsPostData (e : OpenSearchEngine) : String :=
  joinAmp (e.suggestionsParameters.map (fun p => p.1 ++ "=" ++ p.2))

/-- The POST request body built by `requestSearchResults` for a post-method
search record. -/
def searchPostData (e : OpenSearchEngine) : String :=
  joinAmp (e.searchParameters.map (fun p => p.1 ++ "=" ++ p.2))

/-- The request handed to the network access manager by
`OpenSearchEngine::requestSuggestions`: the suggestions URL and the request
body (empty for GET).  `none` models the early returns for an empty term or a
missing suggestions template. -/
def suggestionsTransportRequest (lang appName : String) (e : OpenSearchEngine)
    (searchTerm : String) : Option (Option Url × String) :=
  if searchTerm = "" ∨ ¬providesSuggestions e then none
  else if e.suggestionsMethod = "get" then
    some (suggestionsUrl lang appName e searchTerm, "")
  else
    some (suggestionsUrl lang appName e searchTerm, suggestionsPostData e)

/-- The request handed to the delegate by
`OpenSearchEngine::requestSearchResults`: URL, HTTP operation and body.
`none` models the early return for a missing delegate or an empty term. -/
def requestSearchResults (lang appName : String) (e : OpenSearchEngine)
    (hasDelegate : Bool) (searchTerm : String) :
    Option (Option Url × String × String) :=
  if ¬hasDelegate ∨ searchTerm = "" then none
  else
    some (searchUrl lang appName e searchTerm, e.searchMethod,
      if e.searchMethod = "post" then searchPostData e else "")

/-- Values produced by the external script engine evaluating a suggestion
response (spec 6: an HTTP transport plus an external JSON-shape evaluator).
Modelled from the spec: the evaluator yields strings, numbers and arrays;
anything else is `jother`. -/
inductive JVal where
  | jstr (s : String)
  | jnum (n : Int)
  | jarr (xs : List JVal)
  | jother

/-- Skip blanks, as the JSON evaluator does between lexical elements. -/
def skipWs : List Char → List Char
  | [] => []
  | c :: rest => if c = ' ' then skipWs rest else c :: rest

/-- Parse a double-quoted string body (no escape handling; the evaluator model
only needs plain strings). -/
def parseStr (acc : List Char) : List Char → Option (String × List Char)
  | [] => none
  | c :: rest =>
    if c = '\"' then some (⟨acc.reverse⟩, rest) else parseStr (c :: acc) rest

/-- Parse an optional minus sign and a digit run. -/
def parseDigits (acc : Int) (seen : Bool) : List Char →
    Option (Int × List Char)
  | [] => if seen then some (acc, []) else none
  | c :: rest =>
    if c.isDigit then parseDigits (acc * 10 + (c.toNat - 48)) true rest
    else if seen then some (acc, c :: rest) else none

mutual

/-- Modelled from the spec: the external JSON-shape evaluator, parsing a
value of the suggestion-response layout (strings, integers, arrays). -/
def parseVal : Nat → List Char → Option (JVal × List Char)
  | 0, _ => none
  | fuel + 1, cs =>
    match skipWs cs with
    | [] => none
    | c :: rest =>
      if c = '\"' then
        match parseStr [] rest with
        | some (s, rest1) => some (.jstr s, rest1)
        | none => none
      else if c = '[' then parseArr fuel rest []
      else if c = '-' then
        match parseDigits 0 false rest with
        | some (n, rest1) => some (.jnum (-n), rest1)
        | none => none
      else if c.isDigit then
        match parseDigits 0 false (c :: rest) with
        | some (n, rest1) => some (.jnum n, rest1)
        | none => none
      else none

/-- Parse the elements of an array after its opening bracket. -/
def parseArr : Nat → List Char → List JVal → Option (JVal × List Char)
  | 0, _, _ => none
  | fuel + 1, cs, acc =>
    match skipWs cs with
    | ']' :: rest => some (.jarr acc.reverse, rest)
    | cs1 =>
      match parseVal fuel cs1 with
      | some (v, rest) =>
        match skipWs rest with
        | ',' :: rest1 => parseArr fuel rest1 (v :: acc)
        | ']' :: rest1 => some (.jarr (v :: acc).reverse, rest1)
        | _ => none
      | none => none

end

/-- Modelled from the spec: evaluation of the trimmed response text by the
external evaluator; `none` covers both a body that cannot be evaluated and a
result with trailing garbage. -/
def evalResponse (s : String) : Option JVal :=
  match parseVal (s.data.length + 1) s.data with
  | some (v, rest) => if skipWs rest = [] then some v else none
  | none => none

/-- Model of `QScriptValue::property(1)`: the element at index 1 of an array,
`none` (undefined) otherwise. -/
def property1 : JVal → Option JVal
  | .jarr xs => xs[1]?
  | _ => none

/-- Conversion of one decoded element to a string, as `qScriptValueToSequence`
does for a `QStringList` target. -/
def jToString : JVal → String
  | .jstr s => s
  | .jnum n => toString n
  | _ => ""

/-- Whitespace in the sense of `QChar::isSpace` (restricted to ASCII). -/
def isQSpace (c : Char) : Bool :=
  c = ' ' || c = '\t' || c = '\n' || c = '\x0b' || c = '\x0c' || c = '\r'

/-- Model of `QString::trimmed`: strip leading and trailing whitespace. -/
def trimmed (s : String) : String :=
  ⟨(((s.data.dropWhile isQSpace).reverse.dropWhile isQSpace).reverse)⟩

/-- Model of `OpenSearchEngine::suggestionsObtained` as a function from the
response body to the optionally emitted suggestion list: `none` means the
`suggestions` signal is not emitted. -/
def suggestionsObtained (body : String) : Option (List String) :=
  let response := trimmed body
  if response = "" then none
  else if ¬(response.data.head? = some '[' ∧ response.data.getLast? = some ']') then
    none
  else
    match evalResponse response with
    | none => none
    | some responseParts =>
      match property1 responseParts with
      | some (.jarr xs) => some (xs.map jToString)
      | _ => none

/-- State of the suggestion client of one engine: the engine's data, whether a
network access manager is attached, the identity of the reply whose `finished`
signal is still connected to `suggestionsObtained`, and a counter supplying
fresh reply identities. -/
structure SugClient where
  engine : OpenSearchEngine
  hasNAM : Bool
  pending : Option Nat
  nextId : Nat
deriving DecidableEq

/-- Model of `OpenSearchEngine::requestSuggestions`: early-out on an empty
term, a missing suggestions template or a missing network access manager;
otherwise the outstanding reply (if any) is disconnected, aborted and
discarded, and a fresh reply becomes the only connected one. -/
def requestSuggestions (c : SugClient) (searchTerm : String) : SugClient :=
  if searchTerm = "" ∨ ¬providesSuggestions c.engine then c
  else if ¬c.hasNAM then c
  else { c with pending := some c.nextId, nextId := c.nextId + 1 }

/-- A reply's `finished` signal fires: `suggestionsObtained` runs only when
that reply is still the connected one (an aborted reply was disconnected
first), clearing the pending reply and possibly emitting the suggestion
list. -/
def finishReply (c : SugClient) (id : Nat) (body : String) :
    SugClient × Option (List String) :=
  if c.pending = some id then
    ({ c with pending := none }, suggestionsObtained body)
  else (c, none)

/-- Run a sequence of reply completions, collecting the emitted notifications
tagged with the reply that produced them. -/
def runFinishes (c : SugClient) : List (Nat × String) → List (Nat × List String)
  | [] => []
  | (id, body) :: evs =>
    match finishReply c id body with
    | (c1, some l) => (id, l) :: runFinishes c1 evs
    | (c1, none) => runFinishes c1 evs

/-- Model of `QString::split(QLatin1Char(' '), QString::SkipEmptyParts)`:
split on single spaces, dropping empty fragments.  The accumulator holds the
current fragment reversed. -/
def splitSpaceAux (cur : List Char) : List Char → List String
  | [] => if cur = [] then [] else [⟨cur.reverse⟩]
  | c :: rest =>
    if c = ' ' then
      if cur = [] then splitSpaceAux [] rest
      else ⟨cur.reverse⟩ :: splitSpaceAux [] rest
    else splitSpaceAux (c :: cur) rest

/-- Splitting of the `Tags` element text into the tag sequence. -/
def splitTags (s : String) : List String :=
  splitSpaceAux [] s.data

/-- Structural tokens of the XML stream read by `OpenSearchReader`
(`QXmlStreamReader` events): start elements with their resolved name,
namespace URI and attributes, end elements, character data, and anything
else (`misc`: comments, processing instructions, document markers). -/
inductive Tok where
  | startEl (name nsUri : String) (attrs : List (String × String))
  | endEl
  | chars (s : String)
  | misc
deriving DecidableEq

/-- Model of `QXmlStreamAttributes::value(...).toString()`: the first
attribute with the given name, or the empty string. -/
def attrVal (attrs : List (String × String)) (k : String) : String :=
  (attrs.lookup k).getD ""

/-- Model of `OpenSearchReader::skipSubtree`, entered with the current token
being a start element and consuming tokens through its matching end element
(or to the end of input).  The recursive C++ formulation is rendered with an
explicit depth counter over the remaining tokens. -/
def skipSub (depth : Nat) : List Tok → List Tok
  | [] => []
  | .endEl :: ts => if depth = 0 then ts else skipSub (depth - 1) ts
  | .startEl _ _ _ :: ts => skipSub (depth + 1) ts
  | _ :: ts => skipSub depth ts

/-- Model of `QXmlStreamReader::readElementText()` (default behaviour),
entered with the current token being a start element: concatenate character
data up to the end element; a child start element or premature end of input
raises an error, returning the text collected so far. -/
def elemText (acc : String) : List Tok → String × List Tok × Option String
  | [] => (acc, [], some "Premature end of document.")
  | .chars s :: ts => elemText (acc ++ s) ts
  | .endEl :: ts => (acc, ts, none)
  | .misc :: ts => elemText acc ts
  | .startEl _ _ _ :: ts => (acc, ts, some "Expected character data.")

/-- Advance to the first start element of the stream
(`while (!isStartElement() && !atEnd()) readNext();`), returning its name,
namespace URI, attributes and the remaining tokens. -/
def firstStartSplit :
    List Tok → Option (String × String × List (String × String) × List Tok)
  | [] => none
  | .startEl n ns attrs :: ts => some (n, ns, attrs, ts)
  | _ :: ts => firstStartSplit ts

/-- The child loop of `OpenSearchReader::readUrl`, collecting `Param` and
`Parameter` entries.  A parameter with a non-empty name and value is appended
and one further token is consumed (the `readNext()` at the end of
`readParameter`); a parameter missing either attribute is dropped *without*
consuming its end element, so the next loop iteration sees that end element
and breaks out of the loop.  Each iteration consumes at least one token, so
the fuel passed by `readUrl` (the token count plus one) never runs out. -/
def urlLoop : Nat → List (String × String) → List Tok →
    List (String × String) × List Tok
  | 0, params, ts => (params, ts)
  | fuel + 1, params, ts =>
    match ts with
    | [] => (params, [])
    | .endEl :: rest => (params, rest)
    | .startEl n _ attrs :: rest =>
      if n = "Param" ∨ n = "Parameter" then
        let key := attrVal attrs "name"
        let value := attrVal attrs "value"
        if key = "" ∨ value = "" then urlLoop fuel params rest
        else urlLoop fuel (params ++ [(key, value)]) (rest.drop 1)
      else urlLoop fuel params (skipSub 0 rest)
    | _ :: rest => urlLoop fuel params rest

/-- Normalization of the `type` attribute in `OpenSearchReader::readUrl`:
empty or `application/xhtml+xml` becomes `text/html`. -/
def normType (type0 : String) : String :=
  if type0 = "" ∨ type0 = "application/xhtml+xml" then "text/html" else type0

/-- Model of `OpenSearchReader::readUrl`, entered at a `Url` start element
with the given attributes, `ts` being the tokens after it.  Returns the
updated engine and the remaining tokens. -/
def readUrl (e : OpenSearchEngine) (attrs : List (String × String))
    (ts : List Tok) : OpenSearchEngine × List Tok :=
  let url := attrVal attrs "template"
  let method := attrVal attrs "method"
  let type1 := normType (attrVal attrs "type")
  if url = "" then (e, skipSub 0 ts)
  else if type1 = "application/x-suggestions+json" ∧ e.suggestionsUrlTemplate ≠ "" then
    (e, skipSub 0 ts)
  else if type1 = "text/html" ∧ e.searchUrlTemplate ≠ "" then (e, skipSub 0 ts)
  else
    let pr := urlLoop (ts.length + 1) [] ts
    if type1 = "application/x-suggestions+json" then
      (setSuggestionsMethod
        (setSuggestionsParameters (setSuggestionsUrlTemplate e url) pr.1) method,
        pr.2)
    else if type1 = "text/html" then
      (setSearchMethod (setSearchParameters (setSearchUrlTemplate e url) pr.1)
        method, pr.2)
    else (e, pr.2)

/-- The required OpenSearch 1.1 namespace URI. -/
def osNamespace : String := "http://a9.com/-/spec/opensearch/1.1/"

/-- The parse error raised for a wrong root element. -/
def notOpenSearchError : String := "The file is not an OpenSearch 1.1 file."

/-- The child loop of `OpenSearchReader::readDocument`, dispatching on the
recognized top-level elements and skipping unknown subtrees.  An error raised
by `readElementText` makes `atEnd()` true and stops the walk.  Each iteration
consumes at least one token, so the fuel passed by `readDocument` (the token
count plus one) never runs out. -/
def readDocLoop : Nat → OpenSearchEngine → List Tok →
    OpenSearchEngine × List Tok × Option String
  | 0, e, ts => (e, ts, none)
  | fuel + 1, e, ts =>
    match ts with
    | [] => (e, [], none)
    | .endEl :: rest => (e, rest, none)
    | .startEl n _ attrs :: rest =>
      if n = "ShortName" then
        match elemText "" rest with
        | (txt, ts1, some m) => (setName e txt, ts1, some m)
        | (txt, ts1, none) => readDocLoop fuel (setName e txt) ts1
      else if n = "Description" then
        match elemText "" rest with
        | (txt, ts1, some m) => (setDescription e txt, ts1, some m)
        | (txt, ts1, none) => readDocLoop fuel (setDescription e txt) ts1
      else if n = "Url" then
        match readUrl e attrs rest with
        | (e1, ts1) => readDocLoop fuel e1 ts1
      else if n = "Image" then
        match elemText "" rest with
        | (txt, ts1, some m) => (setImageUrl e txt, ts1, some m)
        | (txt, ts1, none) => readDocLoop fuel (setImageUrl e txt) ts1
      else if n = "Tags" then
        match elemText "" rest with
        | (txt, ts1, some m) => (setTags e (splitTags txt), ts1, some m)
        | (txt, ts1, none) => readDocLoop fuel (setTags e (splitTags txt)) ts1
      else readDocLoop fuel e (skipSub 0 rest)
    | _ :: rest => readDocLoop fuel e rest

/-- Model of `OpenSearchReader::readDocument`: advance to the first start
element, check the root tag name and namespace, then walk the children. -/
def readDocument (ts : List Tok) : OpenSearchEngine × Option String :=
  match firstStartSplit ts with
  | some (n, ns, _, rest) =>
    if n = "OpenSearchDescription" ∧ ns = osNamespace then
      match readDocLoop (rest.length + 1) mkEngine rest with
      | (e, _, er) => (e, er)
    else (mkEngine, some notOpenSearchError)
  | none => (mkEngine, some notOpenSearchError)

/-- Model of `OpenSearchReader::read`: a freshly constructed engine is always
returned (never null); the second component is the reader's error state,
which the caller inspects separately. -/
def read (ts : List Tok) : OpenSearchEngine × Option String :=
  readDocument ts

/-- Both URL-template records carry a method that is `get` or `post`. -/
def methodInv (e : OpenSearchEngine) : Prop :=
  (e.searchMethod = "get" ∨ e.searchMethod = "post") ∧
  (e.suggestionsMethod = "get" ∨ e.suggestionsMethod = "post")

/-- A document whose root has two `Url` children of type `text/html`, with
distinct templates, parameters and methods. -/
def twoUrlDoc (t1 t2 : String) : List Tok := [
  .startEl "OpenSearchDescription" osNamespace [],
  .startEl "Url" osNamespace
    [("type", "text/html"), ("template", t1), ("method", "post")],
  .startEl "Param" osNamespace [("name", "a"), ("value", "b")], .endEl,
  .endEl,
  .startEl "Url" osNamespace
    [("type", "text/html"), ("template", t2), ("method", "get")],
  .startEl "Param" osNamespace [("name", "c"), ("value", "d")], .endEl,
  .endEl,
  .endEl]

/-- A document whose first start element is not the OpenSearch root. -/
def wrongRootDoc : List Tok :=
  [.misc, .startEl "Foo" osNamespace [], .endEl]

/-- A document whose root holds a `Url` with one `Param` missing its value
followed by a valid sibling `Param`, and then a `ShortName`. -/
def paramMissingValueDoc : List Tok := [
  .startEl "OpenSearchDescription" osNamespace [],
  .startEl "Url" osNamespace [("type", "text/html"), ("template", "http://ex/")],
  .startEl "Param" osNamespace [("name", "a")], .endEl,
  .startEl "Param" osNamespace [("name", "b"), ("value", "c")], .endEl,
  .endEl,
  .startEl "ShortName" osNamespace [], .chars "X", .endEl,
  .endEl]

/-- A document whose root has two `ShortName` children with the given texts. -/
def twoShortNameDoc (s1 s2 : String) : List Tok := [
  .startEl "OpenSearchDescription" osNamespace [],
  .startEl "ShortName" osNamespace [], .chars s1, .endEl,
  .startEl "ShortName" osNamespace [], .chars s2, .endEl,
  .endEl]

/-- One well-formed child block of the root element: the recognized
text-only elements, a `Url` element with its `Param` children, or an
unrecognized extension element with text content. -/
inductive Child where
  | shortName (txt : String)
  | description (txt : String)
  | image (txt : String)
  | tags (txt : String)
  | url (ty tpl m : String) (params : List (String × String))
  | extensionEl (nm : String) (txt : String)

/-- The token rendering of a list of `Param` child elements. -/
def paramToks (ps : List (String × String)) : List Tok :=
  ps.flatMap (fun p =>
    [.startEl "Param" osNamespace [("name", p.1), ("value", p.2)], .endEl])

/-- The token rendering of one child block. -/
def childToks : Child → List Tok
  | .shortName txt => [.startEl "ShortName" osNamespace [], .chars txt, .endEl]
  | .description txt =>
      [.startEl "Description" osNamespace [], .chars txt, .endEl]
  | .image txt => [.startEl "Image" osNamespace [], .chars txt, .endEl]
  | .tags txt => [.startEl "Tags" osNamespace [], .chars txt, .endEl]
  | .url ty tpl m ps =>
      .startEl "Url" osNamespace
          [("type", ty), ("template", tpl), ("method", m)] ::
        (paramToks ps ++ [.endEl])
  | .extensionEl nm txt => [.startEl nm osNamespace [], .chars txt, .endEl]

/-- Well-formedness of a child block: a `Url` block's parameters all carry a
non-empty name and value (the malformed fragments of C8 desynchronize the
walk), and an extension element does not shadow a recognized name. -/
def childOk : Child → Bool
  | .url _ _ _ ps => decide (∀ p ∈ ps, p.1 ≠ "" ∧ p.2 ≠ "")
  | .extensionEl nm _ =>
      decide (nm ≠ "ShortName" ∧ nm ≠ "Description" ∧ nm ≠ "Url" ∧
        nm ≠ "Image" ∧ nm ≠ "Tags")
  | _ => true

/-- A document whose root holds the given child blocks. -/
def docOf (cs : List Child) : List Tok :=
  .startEl "OpenSearchDescription" osNamespace [] ::
    (cs.flatMap childToks ++ [.endEl])

/-- The engine update performed by the document loop for one child block (for
a `Url` block, the result of `readUrl` on the block's own tokens). -/
def applyChild (e : OpenSearchEngine) : Child → OpenSearchEngine
  | .shortName txt => setName e txt
  | .description txt => setDescription e txt
  | .image txt => setImageUrl e txt
  | .tags txt => setTags e (splitTags txt)
  | .url ty tpl m ps =>
      (readUrl e [("type", ty), ("template", tpl), ("method", m)]
        (paramToks ps ++ [.endEl])).1
  | .extensionEl _ _ => e

/-- The element text of the last `ShortName` block, starting from a previous
value. -/
def lastShortName (acc : String) : List Child → String
  | [] => acc
  | .shortName txt :: rest => lastShortName txt rest
  | _ :: rest => lastShortName acc rest

/-- A replacement pass leaves a character list unchanged when the pattern
occurs nowhere in it. -/
theorem replaceAllFuel_pat_absent :
    ∀ (fuel : Nat) (pat rep l : List Char), ¬(pat <:+: l) →
      replaceAllFuel fuel pat rep l = l := by
  intro fuel
  induction fuel with
  | zero => intro pat rep l _; rfl
  | succ n ih =>
    intro pat rep l h
    cases l with
    | nil => rfl
    | cons c rest =>
      have hcond : ¬(pat ≠ [] ∧ pat.isPrefixOf (c :: rest)) := by
        rintro ⟨-, hp⟩
        exact h (List.isPrefixOf_iff_prefix.mp hp).isInfix
      simp only [replaceAllFuel, if_neg hcond]
      rw [ih pat rep rest (fun hi => h (List.infix_cons hi))]

/-- String-level version of `replaceAllFuel_pat_absent`. -/
theorem replaceAll_pat_absent (s pat rep : String)
    (h : ¬(pat.data <:+: s.data)) : replaceAll s pat rep = s := by
  unfold replaceAll
  rw [replaceAllFuel_pat_absent _ _ _ _ h]

/-- The `source`-pattern replacement pass leaves a character list unchanged
when the pattern matches at no position. -/
theorem replaceSourceFuel_of_noSourceTok :
    ∀ (fuel : Nat) (rep l : List Char), noSourceTok l = true →
      replaceSourceFuel fuel rep l = l := by
  intro fuel
  induction fuel with
  | zero => intro rep l _; rfl
  | succ n ih =>
    intro rep l h
    cases l with
    | nil => rfl
    | cons c rest =>
      by_cases hc : c = '\x7b'
      · simp only [noSourceTok, if_pos hc] at h
        cases h2 : splitAtRBrace rest with
        | some pr =>
          rw [h2] at h
          simp only [Bool.and_eq_true] at h
          obtain ⟨hm, hrest⟩ := h
          have hm1 : sourceContentMatch pr.1 = false := by
            cases hb : sourceContentMatch pr.1 with
            | false => rfl
            | true => rw [hb] at hm; exact absurd hm (by decide)
          simp [replaceSourceFuel, hc, h2, hm1, ih rep rest hrest]
        | none =>
          rw [h2] at h
          simp only [replaceSourceFuel, if_pos hc, h2]
          rw [ih rep rest h]
      · simp only [noSourceTok, if_neg hc] at h
        simp only [replaceSourceFuel, if_neg hc]
        rw [ih rep rest h]

/-- String-level version of `replaceSourceFuel_of_noSourceTok`. -/
theorem replaceSource_of_noSourceTok (s rep : String)
    (h : noSourceTok s.data = true) : replaceSource s rep = s := by
  unfold replaceSource
  rw [replaceSourceFuel_of_noSourceTok _ _ _ h]

/-- C2: `parseTemplate` substitutes the placeholders in the fixed order
count, startIndex, startPage, language (locale with underscore replaced by a
hyphen), inputEncoding, outputEncoding, the brace-wrapped `source` token
family (to the application name), and finally searchTerms, each globally
before the next, and any placeholder not in this list passes through
untouched. -/
theorem c2_parseTemplate (lang app term tmpl : String) :
    parseTemplate lang app term tmpl =
      replaceAll
        (replaceSource
          (replaceAll
            (replaceAll
              (replaceAll
                (replaceAll
                  (replaceAll
                    (replaceAll tmpl "{count}" "20")
                    "{startIndex}" "0")
                  "{startPage}" "0")
                "{language}" (replaceAll lang "_" "-"))
              "{inputEncoding}" "UTF-8")
            "{outputEncoding}" "UTF-8")
          app)
        "{searchTerms}" term ∧
    parseTemplate lang app term "a{count}b{count}" = "a20b20" ∧
    parseTemplate lang app term "{startIndex}" = "0" ∧
    parseTemplate lang app term "{startPage}" = "0" ∧
    parseTemplate "en_US" app term "{language}" = "en-US" ∧
    parseTemplate lang app term "{inputEncoding}" = "UTF-8" ∧
    parseTemplate lang app term "{outputEncoding}" = "UTF-8" ∧
    parseTemplate lang "TestApp" term "{source}" = "TestApp" ∧
    parseTemplate lang "TestApp" term "{google:source}" = "TestApp" ∧
    parseTemplate lang "TestApp" term "{source?}" = "TestApp" ∧
    parseTemplate lang app term "{searchTerms}" = term ∧
    (¬("{count}".data <:+: tmpl.data) →
      ¬("{startIndex}".data <:+: tmpl.data) →
      ¬("{startPage}".data <:+: tmpl.data) →
      ¬("{language}".data <:+: tmpl.data) →
      ¬("{inputEncoding}".data <:+: tmpl.data) →
      ¬("{outputEncoding}".data <:+: tmpl.data) →
      ¬("{searchTerms}".data <:+: tmpl.data) →
      noSourceTok tmpl.data = true →
      parseTemplate lang app term tmpl = tmpl) := by
  refine ⟨rfl, rfl, rfl, rfl, rfl, rfl, rfl, rfl, rfl, rfl, ?_, ?_⟩
  · have h : parseTemplate lang app term "{searchTerms}" =
        ⟨term.data ++ ([] : List Char)⟩ := rfl
    rw [h, List.append_nil]
  · intro h1 h2 h3 h4 h5 h6 h7 hs
    show replaceAll
        (replaceSource
          (replaceAll
            (replaceAll
              (replaceAll
                (replaceAll
                  (replaceAll
                    (replaceAll tmpl "{count}" "20")
                    "{startIndex}" "0")
                  "{startPage}" "0")
                "{language}" (replaceAll lang "_" "-"))
              "{inputEncoding}" "UTF-8")
            "{outputEncoding}" "UTF-8")
          app)
        "{searchTerms}" term = tmpl
    rw [replaceAll_pat_absent _ _ _ h1, replaceAll_pat_absent _ _ _ h2,
      replaceAll_pat_absent _ _ _ h3, replaceAll_pat_absent _ _ _ h4,
      replaceAll_pat_absent _ _ _ h5, replaceAll_pat_absent _ _ _ h6,
      replaceSource_of_noSourceTok _ _ hs, replaceAll_pat_absent _ _ _ h7]

/-- Witness for C2 at a concrete template containing only an unrecognized
placeholder: it passes through untouched. -/
theorem c2_parseTemplate_witness :
    parseTemplate "en_US" "TestApp" "thing" "http://x/?u={unknown}" =
      "http://x/?u={unknown}" :=
  (c2_parseTemplate "en_US" "TestApp" "thing" "http://x/?u={unknown}").2.2.2.2.2.2.2.2.2.2.2
    (by decide) (by decide) (by decide) (by decide) (by decide) (by decide)
    (by decide) (by decide)

/-- C1: `searchUrl` and `suggestionsUrl` return the empty-URL marker for an
empty template; otherwise they return the expanded template, and the stored
parameter pairs are appended as query items in stored order with expanded
values exactly when the record's method is GET, while POST records append no
parameters to the URL. -/
theorem c1_url_construction (lang app : String) (e : OpenSearchEngine)
    (term : String) :
    (e.searchUrlTemplate = "" → searchUrl lang app e term = none) ∧
    (e.searchUrlTemplate ≠ "" → e.searchMethod = "get" →
      searchUrl lang app e term = some
        { base := parseTemplateEnc lang app term e.searchUrlTemplate
          query := e.searchParameters.map
            (fun p => (p.1, parseTemplateEnc lang app term p.2)) }) ∧
    (e.searchUrlTemplate ≠ "" → e.searchMethod = "post" →
      searchUrl lang app e term = some
        { base := parseTemplateEnc lang app term e.searchUrlTemplate
          query := [] }) ∧
    (e.suggestionsUrlTemplate = "" → suggestionsUrl lang app e term = none) ∧
    (e.suggestionsUrlTemplate ≠ "" → e.suggestionsMethod = "get" →
      suggestionsUrl lang app e term = some
        { base := parseTemplateEnc lang app term e.suggestionsUrlTemplate
          query := e.suggestionsParameters.map
            (fun p => (p.1, parseTemplateEnc lang app term p.2)) }) ∧
    (e.suggestionsUrlTemplate ≠ "" → e.suggestionsMethod = "post" →
      suggestionsUrl lang app e term = some
        { base := parseTemplateEnc lang app term e.suggestionsUrlTemplate
          query := [] }) := by
  refine ⟨?_, ?_, ?_, ?_, ?_, ?_⟩
  · intro h; simp [searchUrl, h]
  · intro h hm; simp [searchUrl, h, hm]
  · intro h hm; simp [searchUrl, h, hm]
  · intro h; simp [suggestionsUrl, h]
  · intro h hm; simp [suggestionsUrl, h, hm]
  · intro h hm; simp [suggestionsUrl, h, hm]

/-- Witness for C1 on a concrete engine: GET search appends the expanded
parameter, POST suggestions appends nothing. -/
theorem c1_url_construction_witness :
    searchUrl "en_US" "App"
      { mkEngine with
        searchUrlTemplate := "http://e/{searchTerms}"
        searchParameters := [("a", "{searchTerms}")]
        suggestionsUrlTemplate := "http://s/"
        suggestionsParameters := [("b", "c")]
        suggestionsMethod := "post" } "x y" =
      some ⟨"http://e/x%20y", [("a", "x%20y")]⟩ ∧
    suggestionsUrl "en_US" "App"
      { mkEngine with
        searchUrlTemplate := "http://e/{searchTerms}"
        searchParameters := [("a", "{searchTerms}")]
        suggestionsUrlTemplate := "http://s/"
        suggestionsParameters := [("b", "c")]
        suggestionsMethod := "post" } "x y" =
      some ⟨"http://s/", []⟩ := by
  constructor
  · have h := (c1_url_construction "en_US" "App"
      { mkEngine with
        searchUrlTemplate := "http://e/{searchTerms}"
        searchParameters := [("a", "{searchTerms}")]
        suggestionsUrlTemplate := "http://s/"
        suggestionsParameters := [("b", "c")]
        suggestionsMethod := "post" } "x y").2.1 (by decide) (by decide)
    rw [h]; decide
  · have h := (c1_url_construction "en_US" "App"
      { mkEngine with
        searchUrlTemplate := "http://e/{searchTerms}"
        searchParameters := [("a", "{searchTerms}")]
        suggestionsUrlTemplate := "http://s/"
        suggestionsParameters := [("b", "c")]
        suggestionsMethod := "post" } "x y").2.2.2.2.2 (by decide) (by decide)
    rw [h]; decide

/-- C4: a document whose first start element is not the OpenSearch 1.1 root
(wrong tag name or wrong namespace URI) makes `read` raise the descriptive
parse error and abandon the rest of the document, while still returning a
(default-constructed) descriptor; the failure is visible only through the
separate error component. -/
theorem c4_wrong_root (ts : List Tok) (n ns : String)
    (attrs : List (String × String)) (rest : List Tok)
    (h1 : firstStartSplit ts = some (n, ns, attrs, rest))
    (h2 : ¬(n = "OpenSearchDescription" ∧ ns = osNamespace)) :
    read ts = (mkEngine, some notOpenSearchError) := by
  simp [read, readDocument, h1, h2]

/-- Witness for C4 on a concrete document with root tag `Foo`. -/
theorem c4_wrong_root_witness :
    read wrongRootDoc = (mkEngine, some notOpenSearchError) :=
  c4_wrong_root wrongRootDoc "Foo" osNamespace [] [.endEl] (by decide) (by decide)

/-- C8, behaviour of the code at the failing input: in a document whose `Url`
holds a `Param` missing its value followed by a valid sibling `Param` and a
later `ShortName`, the reader commits the `Url` with an empty parameter list
(the valid sibling is lost), silently skips the rest of the document (the
`ShortName` is never processed), and raises no error. -/
theorem c8_param_missing_value_truncates :
    (read paramMissingValueDoc).1.searchUrlTemplate = "http://ex/" ∧
    (read paramMissingValueDoc).1.searchParameters = [] ∧
    (read paramMissingValueDoc).1.name = "" ∧
    (read paramMissingValueDoc).2 = none := by
  decide

/-- C9, counterexample: in a document with two `ShortName` children whose
texts are `A` then `B`, the resulting descriptor's name is `B`, not the
element text of the first `ShortName`. -/
theorem c9_first_shortname_counterexample :
    (read (twoShortNameDoc "A" "B")).1.name = "B" ∧
    (read (twoShortNameDoc "A" "B")).1.name ≠ "A" := by
  decide

/-- The token rendering of `Param` blocks has two tokens per parameter. -/
theorem paramToks_length (ps : List (String × String)) :
    (paramToks ps).length = 2 * ps.length := by
  induction ps with
  | nil => rfl
  | cons p rest ih =>
    have h : paramToks (p :: rest) =
        .startEl "Param" osNamespace [("name", p.1), ("value", p.2)] ::
          .endEl :: paramToks rest := rfl
    rw [h]
    simp [ih]
    omega

/-- `skipSubtree` entered at a `Url` start element consumes the `Param`
children and the closing end element exactly. -/
theorem skipSub_paramToks :
    ∀ (ps : List (String × String)) (tail : List Tok),
      skipSub 0 (paramToks ps ++ .endEl :: tail) = tail := by
  intro ps
  induction ps with
  | nil => intro tail; rfl
  | cons p rest ih =>
    intro tail
    have h : paramToks (p :: rest) ++ Tok.endEl :: tail =
        .startEl "Param" osNamespace [("name", p.1), ("value", p.2)] ::
          .endEl :: (paramToks rest ++ .endEl :: tail) := by
      simp [paramToks]
    rw [h]
    show skipSub 0 (paramToks rest ++ .endEl :: tail) = tail
    exact ih tail

/-- The `Url` child loop collects exactly the rendered parameters when every
one of them has a non-empty name and value, stopping at the end element. -/
theorem urlLoop_paramToks :
    ∀ (ps acc : List (String × String)) (tail : List Tok) (fuel : Nat),
      ps.length + 1 ≤ fuel → (∀ p ∈ ps, p.1 ≠ "" ∧ p.2 ≠ "") →
      urlLoop fuel acc (paramToks ps ++ .endEl :: tail) = (acc ++ ps, tail) := by
  intro ps
  induction ps with
  | nil =>
    intro acc tail fuel hf _
    cases fuel with
    | zero => omega
    | succ f => simp [paramToks, urlLoop]
  | cons p rest ih =>
    intro acc tail fuel hf hv
    obtain ⟨k, v⟩ := p
    cases fuel with
    | zero => simp at hf
    | succ f =>
      have hkv := hv (k, v) (by simp)
      have htoks : paramToks ((k, v) :: rest) ++ Tok.endEl :: tail =
          .startEl "Param" osNamespace [("name", k), ("value", v)] ::
            .endEl :: (paramToks rest ++ .endEl :: tail) := by
        simp [paramToks]
      rw [htoks]
      have hcond : ¬(attrVal [("name", k), ("value", v)] "name" = "" ∨
          attrVal [("name", k), ("value", v)] "value" = "") := by
        simp [attrVal]
        exact ⟨hkv.1, hkv.2⟩
      rw [urlLoop]
      simp only [if_pos (by decide : ("Param" = "Param" ∨ "Param" = "Parameter")),
        if_neg hcond]
      show urlLoop f (acc ++ [(k, v)]) (paramToks rest ++ .endEl :: tail) =
        (acc ++ (k, v) :: rest, tail)
      rw [ih (acc ++ [(k, v)]) tail f (by simp only [List.length_cons] at hf; omega)
        (fun q hq => hv q (by simp [hq]))]
      simp

/-- Reading a `Url` element whose parameters are well formed consumes exactly
the element's tokens: the engine update is that of the element in isolation
and the stream continues right after its end element. -/
theorem readUrl_local (e : OpenSearchEngine) (ty tpl m : String)
    (ps : List (String × String)) (tail : List Tok)
    (hv : ∀ p ∈ ps, p.1 ≠ "" ∧ p.2 ≠ "") :
    readUrl e [("type", ty), ("template", tpl), ("method", m)]
        (paramToks ps ++ .endEl :: tail) =
      ((readUrl e [("type", ty), ("template", tpl), ("method", m)]
        (paramToks ps ++ [.endEl])).1, tail) := by
  have hl1 : urlLoop ((paramToks ps ++ Tok.endEl :: tail).length + 1) []
      (paramToks ps ++ .endEl :: tail) = ([] ++ ps, tail) := by
    refine urlLoop_paramToks ps [] tail _ ?_ hv
    have := paramToks_length ps
    simp [List.length_append]
    omega
  have hl2 : urlLoop ((paramToks ps ++ [Tok.endEl]).length + 1) []
      (paramToks ps ++ [.endEl]) = ([] ++ ps, []) := by
    refine urlLoop_paramToks ps [] [] _ ?_ hv
    have := paramToks_length ps
    simp [List.length_append]
    omega
  rw [readUrl, readUrl]
  simp only [hl1, hl2]
  split_ifs <;> simp [skipSub_paramToks]

/-- Processing one well-formed child block is a single iteration of the
document loop: it consumes the block's tokens, applies its engine update,
and continues with the remaining tokens. -/
theorem child_step (c : Child) (e : OpenSearchEngine) (fuel : Nat)
    (tail : List Tok) (hc : childOk c = true) :
    readDocLoop (fuel + 1) e (childToks c ++ tail) =
      readDocLoop fuel (applyChild e c) tail := by
  cases c with
  | shortName txt => rfl
  | description txt => rfl
  | image txt => rfl
  | tags txt => rfl
  | extensionEl nm txt =>
    obtain ⟨h1, h2, h3, h4, h5⟩ := of_decide_eq_true hc
    show readDocLoop (fuel + 1) e
        (.startEl nm osNamespace [] :: .chars txt :: .endEl :: tail) =
      readDocLoop fuel e tail
    rw [readDocLoop]
    simp only [if_neg h1, if_neg h2, if_neg h3, if_neg h4, if_neg h5]
    rfl
  | url ty tpl m ps =>
    have hv : ∀ p ∈ ps, p.1 ≠ "" ∧ p.2 ≠ "" := of_decide_eq_true hc
    have hl : childToks (Child.url ty tpl m ps) ++ tail =
        .startEl "Url" osNamespace
            [("type", ty), ("template", tpl), ("method", m)] ::
          (paramToks ps ++ .endEl :: tail) := by
      simp [childToks]
    rw [hl, readDocLoop]
    simp only [if_neg (by decide : ¬("Url" = "ShortName")),
      if_neg (by decide : ¬("Url" = "Description")),
      if_pos (rfl : "Url" = "Url"), if_true,
      readUrl_local e ty tpl m ps tail hv]
    rfl

/-- The document loop over a list of well-formed child blocks folds their
engine updates in order, consuming one fuel unit per block. -/
theorem readDocLoop_childToks :
    ∀ (cs : List Child) (e : OpenSearchEngine) (fuel : Nat) (tail : List Tok),
      (∀ c ∈ cs, childOk c = true) →
      readDocLoop (fuel + cs.length) e (cs.flatMap childToks ++ tail) =
        readDocLoop fuel (cs.foldl applyChild e) tail := by
  intro cs
  induction cs with
  | nil => intro e fuel tail _; rfl
  | cons c rest ih =>
    intro e fuel tail hok
    have hflat : (c :: rest).flatMap childToks ++ tail =
        childToks c ++ (rest.flatMap childToks ++ tail) := by
      simp
    rw [hflat]
    show readDocLoop (fuel + rest.length + 1) e
        (childToks c ++ (rest.flatMap childToks ++ tail)) =
      readDocLoop fuel ((c :: rest).foldl applyChild e) tail
    rw [child_step c e (fuel + rest.length) _ (hok c (by simp))]
    exact ih (applyChild e c) fuel tail (fun c2 hc2 => hok c2 (by simp [hc2]))

/-- `setSearchMethod` never changes the name. -/
theorem setSearchMethod_name (e : OpenSearchEngine) (m : String) :
    (setSearchMethod e m).name = e.name := by
  unfold setSearchMethod
  split <;> rfl

/-- `setSuggestionsMethod` never changes the name. -/
theorem setSuggestionsMethod_name (e : OpenSearchEngine) (m : String) :
    (setSuggestionsMethod e m).name = e.name := by
  unfold setSuggestionsMethod
  split <;> rfl

/-- `readUrl` never changes the name. -/
theorem readUrl_name (e : OpenSearchEngine) (attrs : List (String × String))
    (ts : List Tok) : (readUrl e attrs ts).1.name = e.name := by
  rw [readUrl]
  split_ifs <;>
    simp [setSearchMethod_name, setSuggestionsMethod_name,
      setSearchParameters, setSearchUrlTemplate, setSuggestionsParameters,
      setSuggestionsUrlTemplate]

/-- Folding the child updates leaves the name of the last `ShortName` block
(or the starting name when there is none). -/
theorem foldl_applyChild_name :
    ∀ (cs : List Child) (e : OpenSearchEngine),
      (cs.foldl applyChild e).name = lastShortName e.name cs := by
  intro cs
  induction cs with
  | nil => intro e; rfl
  | cons c rest ih =>
    intro e
    cases c with
    | shortName txt => exact ih (setName e txt)
    | description txt => exact ih _
    | image txt => exact ih _
    | tags txt => exact ih _
    | extensionEl nm txt => exact ih _
    | url ty tpl m ps =>
      show (rest.foldl applyChild (applyChild e (.url ty tpl m ps))).name =
        lastShortName e.name rest
      rw [ih (applyChild e (.url ty tpl m ps))]
      have hn : (applyChild e (Child.url ty tpl m ps)).name = e.name :=
        readUrl_name _ _ _
      rw [hn]

/-- Each child block renders to at least one token. -/
theorem length_le_flatMap_childToks :
    ∀ cs : List Child, cs.length ≤ (cs.flatMap childToks).length := by
  intro cs
  induction cs with
  | nil => simp
  | cons c rest ih =>
    have hc : 1 ≤ (childToks c).length := by cases c <;> simp [childToks]
    have h : (c :: rest).flatMap childToks =
        childToks c ++ rest.flatMap childToks := rfl
    rw [h]
    simp only [List.length_append, List.length_cons]
    omega

/-- C9, amended: the reader does not implement first-wins for `ShortName`:
each `ShortName` child the walk reaches overwrites the name unconditionally
(first conjunct, for any previous engine state), so for every document whose
root children are well-formed blocks — recognized text-only elements, `Url`
elements whose `Param` children all have non-empty name and value, and
unrecognized extension elements — the descriptor's name equals the element
text of the last `ShortName` child. -/
theorem c9_last_shortname_wins (cs : List Child)
    (hok : ∀ c ∈ cs, childOk c = true) :
    (∀ (e : OpenSearchEngine) (txt : String) (ts : List Tok) (fuel : Nat),
      readDocLoop (fuel + 1) e
          (.startEl "ShortName" osNamespace [] :: .chars txt :: .endEl :: ts) =
        readDocLoop fuel (setName e txt) ts) ∧
    (read (docOf cs)).1.name = lastShortName "" cs := by
  refine ⟨fun e txt ts fuel => rfl, ?_⟩
  rw [read, readDocument]
  have hsp : firstStartSplit (docOf cs) =
      some ("OpenSearchDescription", osNamespace, [],
        cs.flatMap childToks ++ [.endEl]) := rfl
  simp only [hsp, if_pos (⟨rfl, rfl⟩ : "OpenSearchDescription" =
    "OpenSearchDescription" ∧ osNamespace = osNamespace)]
  have hfl := length_le_flatMap_childToks cs
  have hsplit : (cs.flatMap childToks ++ [Tok.endEl]).length + 1 =
      ((cs.flatMap childToks ++ [Tok.endEl]).length + 1 - cs.length) +
        cs.length := by
    simp only [List.length_append, List.length_cons, List.length_nil]
    omega
  rw [hsplit, readDocLoop_childToks cs mkEngine _ _ hok]
  have aux : ∀ (f : Nat) (e0 : OpenSearchEngine),
      (readDocLoop f e0 [Tok.endEl]).1 = e0 := by
    intro f e0
    cases f <;> rfl
  rcases h : readDocLoop
      ((cs.flatMap childToks ++ [Tok.endEl]).length + 1 - cs.length)
      (cs.foldl applyChild mkEngine) [Tok.endEl] with ⟨e1, ts1, er1⟩
  have he1 : e1 = cs.foldl applyChild mkEngine := by
    have h2 := aux ((cs.flatMap childToks ++ [Tok.endEl]).length + 1 - cs.length)
      (cs.foldl applyChild mkEngine)
    rw [h] at h2
    exact h2
  show e1.name = lastShortName "" cs
  rw [he1]
  exact foldl_applyChild_name cs mkEngine

/-- Witness for the amended C9 on a concrete well-formed document mixing two
`ShortName` children with a `Url` and an extension element: the last
`ShortName` text wins. -/
theorem c9_last_shortname_wins_witness :
    (read (docOf [Child.shortName "A",
      Child.url "text/html" "http://u/" "post" [("k", "v")],
      Child.extensionEl "Ext" "zz",
      Child.shortName "B"])).1.name = "B" := by
  have h := (c9_last_shortname_wins [Child.shortName "A",
    Child.url "text/html" "http://u/" "post" [("k", "v")],
    Child.extensionEl "Ext" "zz",
    Child.shortName "B"] (by decide)).2
  rw [h]
  decide

/-- C3: once a search URL (type `text/html`, including the types normalized
to it) or a suggestions URL (type `application/x-suggestions+json`) has been
recorded, a later `Url` element of the same type leaves the engine unchanged
and only consumes the element's subtree; consequently a document with two
`text/html` `Url` elements keeps the first one's template, parameters and
method. -/
theorem c3_first_url_wins (e : OpenSearchEngine) (attrs : List (String × String))
    (ts : List Tok) :
    (normType (attrVal attrs "type") = "text/html" →
      attrVal attrs "template" ≠ "" → e.searchUrlTemplate ≠ "" →
      readUrl e attrs ts = (e, skipSub 0 ts)) ∧
    (normType (attrVal attrs "type") = "application/x-suggestions+json" →
      attrVal attrs "template" ≠ "" → e.suggestionsUrlTemplate ≠ "" →
      readUrl e attrs ts = (e, skipSub 0 ts)) ∧
    (read (twoUrlDoc "http://a/" "http://b/")).1 =
      { mkEngine with
        searchUrlTemplate := "http://a/"
        searchParameters := [("a", "b")]
        searchMethod := "post" } := by
  refine ⟨?_, ?_, by decide⟩
  · intro hty hurl hrec
    rw [readUrl]
    simp [hty, hurl, hrec]
  · intro hty hurl hrec
    rw [readUrl]
    simp [hty, hurl, hrec]

/-- Witness for C3 on a concrete second `Url` and a concrete document. -/
theorem c3_first_url_wins_witness :
    readUrl { mkEngine with searchUrlTemplate := "http://first/" }
        [("type", "text/html"), ("template", "http://second/")]
        [.startEl "Param" osNamespace [("name", "x"), ("value", "y")], .endEl,
          .endEl] =
      ({ mkEngine with searchUrlTemplate := "http://first/" }, []) ∧
    (read (twoUrlDoc "http://a/" "http://b/")).1 =
      { mkEngine with
        searchUrlTemplate := "http://a/"
        searchParameters := [("a", "b")]
        searchMethod := "post" } := by
  have hgen := c3_first_url_wins { mkEngine with searchUrlTemplate := "http://first/" }
    [("type", "text/html"), ("template", "http://second/")]
    [.startEl "Param" osNamespace [("name", "x"), ("value", "y")], .endEl, .endEl]
  refine ⟨?_, hgen.2.2⟩
  have h := hgen.1 (by decide) (by decide) (by decide)
  rw [h]; decide

/-- Membership of `requestMethods` means being `get` or `post`. -/
theorem requestMethods_mem_iff (x : String) :
    x ∈ requestMethods ↔ x = "get" ∨ x = "post" := by
  simp [requestMethods]

/-- `setSearchMethod` preserves the method invariant. -/
theorem setSearchMethod_methodInv (e : OpenSearchEngine) (m : String)
    (h : methodInv e) : methodInv (setSearchMethod e m) := by
  unfold setSearchMethod
  by_cases hc : toLowerQ m ∈ requestMethods
  · rw [if_pos hc]
    exact ⟨(requestMethods_mem_iff _).mp hc, h.2⟩
  · rw [if_neg hc]
    exact h

/-- `setSuggestionsMethod` preserves the method invariant. -/
theorem setSuggestionsMethod_methodInv (e : OpenSearchEngine) (m : String)
    (h : methodInv e) : methodInv (setSuggestionsMethod e m) := by
  unfold setSuggestionsMethod
  by_cases hc : toLowerQ m ∈ requestMethods
  · rw [if_pos hc]
    exact ⟨h.1, (requestMethods_mem_iff _).mp hc⟩
  · rw [if_neg hc]
    exact h

/-- `readUrl` preserves the method invariant. -/
theorem readUrl_methodInv (e : OpenSearchEngine) (attrs : List (String × String))
    (ts : List Tok) (h : methodInv e) : methodInv (readUrl e attrs ts).1 := by
  rw [readUrl]
  split
  · exact h
  · split
    · exact h
    · split
      · exact h
      · split
        · exact setSuggestionsMethod_methodInv _ _
            (by simpa [methodInv, setSuggestionsUrlTemplate,
              setSuggestionsParameters] using h)
        · split
          · exact setSearchMethod_methodInv _ _
              (by simpa [methodInv, setSearchUrlTemplate,
                setSearchParameters] using h)
          · exact h

/-- The document child loop preserves the method invariant. -/
theorem readDocLoop_methodInv :
    ∀ (fuel : Nat) (e : OpenSearchEngine) (ts : List Tok), methodInv e →
      methodInv (readDocLoop fuel e ts).1 := by
  intro fuel
  induction fuel with
  | zero => intro e ts h; exact h
  | succ n ih =>
    intro e ts h
    match ts with
    | [] => exact h
    | .endEl :: rest => exact h
    | .chars s :: rest => exact ih e rest h
    | .misc :: rest => exact ih e rest h
    | .startEl nm nsu attrs :: rest =>
      rw [readDocLoop]
      have hname : ∀ v, methodInv (setName e v) := fun v => h
      have hdesc : ∀ v, methodInv (setDescription e v) := fun v => h
      have himg : ∀ v, methodInv (setImageUrl e v) := fun v => h
      have htags : ∀ v, methodInv (setTags e v) := fun v => h
      split
      · rcases h1 : elemText "" rest with ⟨txt, ts1, er⟩
        cases er with
        | some m => simp [h1]; exact hname txt
        | none => simp [h1]; exact ih _ _ (hname txt)
      · split
        · rcases h1 : elemText "" rest with ⟨txt, ts1, er⟩
          cases er with
          | some m => simp [h1]; exact hdesc txt
          | none => simp [h1]; exact ih _ _ (hdesc txt)
        · split
          · rcases h1 : readUrl e attrs rest with ⟨e1, ts1⟩
            simp only [h1]
            have := readUrl_methodInv e attrs rest h
            rw [h1] at this
            exact ih _ _ this
          · split
            · rcases h1 : elemText "" rest with ⟨txt, ts1, er⟩
              cases er with
              | some m => simp [h1]; exact himg txt
              | none => simp [h1]; exact ih _ _ (himg txt)
            · split
              · rcases h1 : elemText "" rest with ⟨txt, ts1, er⟩
                cases er with
                | some m => simp [h1]; exact htags _
                | none => simp [h1]; exact ih _ _ (htags _)
              · exact ih _ _ h

/-- `read` produces an engine satisfying the method invariant. -/
theorem read_methodInv (ts : List Tok) : methodInv (read ts).1 := by
  have hmk : methodInv mkEngine := ⟨Or.inl rfl, Or.inl rfl⟩
  rw [read, readDocument]
  cases h1 : firstStartSplit ts with
  | none => exact hmk
  | some q =>
    obtain ⟨n, ns, attrs, rest⟩ := q
    dsimp only
    split
    · rcases h2 : readDocLoop (rest.length + 1) mkEngine rest with ⟨e, ts1, er⟩
      simp only [h2]
      have := readDocLoop_methodInv (rest.length + 1) mkEngine rest hmk
      rw [h2] at this
      exact this
    · exact hmk

/-- C7: the method of each URL-template record is initially `get` and always
one of `get`/`post`: the two setters lowercase their argument, accept exactly
`get` and `post`, reject anything else without mutating the engine, preserve
the invariant, and any engine produced by `read` satisfies it. -/
theorem c7_method_get_or_post :
    mkEngine.searchMethod = "get" ∧ mkEngine.suggestionsMethod = "get" ∧
    (∀ (e : OpenSearchEngine) (m : String),
      (toLowerQ m = "get" ∨ toLowerQ m = "post") →
        (setSearchMethod e m).searchMethod = toLowerQ m ∧
        (setSuggestionsMethod e m).suggestionsMethod = toLowerQ m) ∧
    (∀ (e : OpenSearchEngine) (m : String),
      ¬(toLowerQ m = "get" ∨ toLowerQ m = "post") →
        setSearchMethod e m = e ∧ setSuggestionsMethod e m = e) ∧
    (∀ (e : OpenSearchEngine) (m : String), methodInv e →
      methodInv (setSearchMethod e m) ∧ methodInv (setSuggestionsMethod e m)) ∧
    (∀ ts : List Tok, methodInv (read ts).1) := by
  refine ⟨rfl, rfl, ?_, ?_, ?_, read_methodInv⟩
  · intro e m hm
    have hc : toLowerQ m ∈ requestMethods := (requestMethods_mem_iff _).mpr hm
    constructor
    · rw [setSearchMethod, if_pos hc]
    · rw [setSuggestionsMethod, if_pos hc]
  · intro e m hm
    have hc : ¬(toLowerQ m ∈ requestMethods) :=
      fun hcc => hm ((requestMethods_mem_iff _).mp hcc)
    constructor
    · rw [setSearchMethod, if_neg hc]
    · rw [setSuggestionsMethod, if_neg hc]
  · intro e m h
    exact ⟨setSearchMethod_methodInv e m h, setSuggestionsMethod_methodInv e m h⟩

/-- Witness for C7: `Post` is accepted (lowercased), `PUT` is rejected with no
mutation. -/
theorem c7_method_get_or_post_witness :
    (setSearchMethod mkEngine "Post").searchMethod = "post" ∧
    setSearchMethod mkEngine "PUT" = mkEngine ∧
    methodInv (setSuggestionsMethod mkEngine "weird") := by
  refine ⟨?_, ?_, ?_⟩
  · have h := (c7_method_get_or_post.2.2.1 mkEngine "Post" (by right; decide)).1
    rw [h]; decide
  · exact (c7_method_get_or_post.2.2.2.1 mkEngine "PUT" (by decide)).1
  · exact (c7_method_get_or_post.2.2.2.2.1 mkEngine "weird"
      ⟨Or.inl rfl, Or.inl rfl⟩).2

/-- C5: gating of the suggestion response: trimmed-empty bodies, bodies not
bracketed as an array, bodies the evaluator rejects, and bodies whose element
at index 1 is not an array all produce no notification; otherwise the decoded
string sequence at index 1 is delivered; `""` and `not-an-array` produce no
notification and the two-element array form delivers the inner list. -/
theorem c5_suggestions_response (body : String) :
    (trimmed body = "" → suggestionsObtained body = none) ∧
    (¬((trimmed body).data.head? = some '[' ∧
        (trimmed body).data.getLast? = some ']') →
      suggestionsObtained body = none) ∧
    (evalResponse (trimmed body) = none → suggestionsObtained body = none) ∧
    (∀ v, evalResponse (trimmed body) = some v →
      (∀ xs, property1 v ≠ some (.jarr xs)) → suggestionsObtained body = none) ∧
    (∀ v xs, trimmed body ≠ "" →
      (trimmed body).data.head? = some '[' →
      (trimmed body).data.getLast? = some ']' →
      evalResponse (trimmed body) = some v →
      property1 v = some (.jarr xs) →
      suggestionsObtained body = some (xs.map jToString)) ∧
    suggestionsObtained "" = none ∧
    suggestionsObtained "not-an-array" = none ∧
    suggestionsObtained "[\"q\",[\"a\",\"b\"]]" = some ["a", "b"] := by
  refine ⟨?_, ?_, ?_, ?_, ?_, by decide, by decide, by decide⟩
  · intro h
    simp [suggestionsObtained, h]
  · intro h
    by_cases he : trimmed body = "" <;> simp [suggestionsObtained, he, h]
  · intro h
    by_cases he : trimmed body = ""
    · simp [suggestionsObtained, he]
    · by_cases hb : ((trimmed body).data.head? = some '[' ∧
        (trimmed body).data.getLast? = some ']')
      · simp [suggestionsObtained, he, hb, h]
      · simp [suggestionsObtained, he, hb]
  · intro v hv hnp
    by_cases he : trimmed body = ""
    · simp [suggestionsObtained, he]
    · by_cases hb : ((trimmed body).data.head? = some '[' ∧
        (trimmed body).data.getLast? = some ']')
      · simp only [suggestionsObtained, if_neg he, hb, not_true_eq_false,
          if_neg (by simp : ¬False), hv]
        cases hp : property1 v with
        | none => simp
        | some j =>
          cases j with
          | jarr xs => exact absurd hp (hnp xs)
          | jstr s => simp
          | jnum n => simp
          | jother => simp
      · simp [suggestionsObtained, he, hb]
  · intro v xs h1 h2 h3 h4 h5
    simp [suggestionsObtained, h1, h2, h3, h4, h5]

/-- Witness for C5: a concrete array-of-strings response is delivered through
the positive branch of the theorem. -/
theorem c5_suggestions_response_witness :
    suggestionsObtained "[\"a\",[\"b\",\"c\"]]" = some ["b", "c"] :=
  (c5_suggestions_response "[\"a\",[\"b\",\"c\"]]").2.2.2.2.1
    (.jarr [.jstr "a", .jarr [.jstr "b", .jstr "c"]])
    [.jstr "b", .jstr "c"]
    (by decide) (by decide) (by decide) rfl rfl

/-- A client with no connected reply never emits a notification. -/
theorem runFinishes_pending_none :
    ∀ (evs : List (Nat × String)) (c : SugClient), c.pending = none →
      runFinishes c evs = [] := by
  intro evs
  induction evs with
  | nil => intro c _; rfl
  | cons ev rest ih =>
    intro c h
    obtain ⟨id, body⟩ := ev
    have hf : finishReply c id body = (c, none) := by
      rw [finishReply, if_neg]
      rw [h]
      simp
    simp only [runFinishes, hf]
    exact ih c h

/-- A client whose only connected reply is `r` emits at most one
notification, and any notification it emits is tagged `r`. -/
theorem runFinishes_pending_some :
    ∀ (evs : List (Nat × String)) (c : SugClient) (r : Nat),
      c.pending = some r →
      (runFinishes c evs).length ≤ 1 ∧
        ∀ p ∈ runFinishes c evs, p.1 = r := by
  intro evs
  induction evs with
  | nil =>
    intro c r _
    exact ⟨by simp [runFinishes], by simp [runFinishes]⟩
  | cons ev rest ih =>
    intro c r h
    obtain ⟨id, body⟩ := ev
    by_cases hid : id = r
    · subst hid
      have hf : finishReply c id body =
          ({ c with pending := none }, suggestionsObtained body) := by
        rw [finishReply, if_pos h]
      have hnone : ∀ evs2, runFinishes { c with pending := none } evs2 = [] :=
        fun evs2 => runFinishes_pending_none evs2 _ rfl
      cases ho : suggestionsObtained body with
      | some l =>
        simp only [runFinishes, hf, ho, hnone]
        exact ⟨by simp, by simp⟩
      | none =>
        simp only [runFinishes, hf, ho, hnone]
        exact ⟨by simp, by simp⟩
    · have hf : finishReply c id body = (c, none) := by
        rw [finishReply, if_neg]
        rw [h]
        exact fun hc => hid (Option.some.inj hc).symm
      simp only [runFinishes, hf]
      exact ih c r h

/-- C6: a second `requestSuggestions` issued while a request is outstanding
replaces it: the old reply is aborted and disconnected before the new one
starts, its completion can never deliver a notification, at most one
notification (tagged with the second reply) is ever delivered, and when the
second reply completes with a decodable body exactly that one notification is
delivered. -/
theorem c6_second_request_cancels_first (c : SugClient) (t1 t2 : String)
    (h1 : t1 ≠ "") (h2 : t2 ≠ "")
    (hp : providesSuggestions c.engine = true) (hn : c.hasNAM = true) :
    (requestSuggestions c t1).pending = some c.nextId ∧
    (requestSuggestions (requestSuggestions c t1) t2).pending =
      some (c.nextId + 1) ∧
    c.nextId ≠ c.nextId + 1 ∧
    (∀ body, finishReply (requestSuggestions (requestSuggestions c t1) t2)
        c.nextId body =
      (requestSuggestions (requestSuggestions c t1) t2, none)) ∧
    (∀ evs,
      (runFinishes (requestSuggestions (requestSuggestions c t1) t2) evs).length
          ≤ 1 ∧
      ∀ p ∈ runFinishes (requestSuggestions (requestSuggestions c t1) t2) evs,
        p.1 = c.nextId + 1) ∧
    (∀ body l, suggestionsObtained body = some l →
      runFinishes (requestSuggestions (requestSuggestions c t1) t2)
          [(c.nextId, body), (c.nextId + 1, body)] =
        [(c.nextId + 1, l)]) := by
  have hr1 : requestSuggestions c t1 =
      { c with pending := some c.nextId, nextId := c.nextId + 1 } := by
    simp [requestSuggestions, h1, hp, hn]
  have hr2 : requestSuggestions (requestSuggestions c t1) t2 =
      { c with pending := some (c.nextId + 1), nextId := c.nextId + 2 } := by
    rw [hr1]
    simp [requestSuggestions, h2, hp, hn]
  have hpend : (requestSuggestions (requestSuggestions c t1) t2).pending =
      some (c.nextId + 1) := by rw [hr2]
  refine ⟨by rw [hr1], hpend, by omega, ?_, ?_, ?_⟩
  · intro body
    rw [finishReply, if_neg]
    rw [hpend]
    intro hc
    have := Option.some.inj hc
    omega
  · intro evs
    exact runFinishes_pending_some evs _ _ hpend
  · intro body l hl
    have hfirst : finishReply (requestSuggestions (requestSuggestions c t1) t2)
        c.nextId body =
        (requestSuggestions (requestSuggestions c t1) t2, none) := by
      rw [finishReply, if_neg]
      rw [hpend]
      intro hc
      have := Option.some.inj hc
      omega
    have hsecond : finishReply (requestSuggestions (requestSuggestions c t1) t2)
        (c.nextId + 1) body =
        ({ requestSuggestions (requestSuggestions c t1) t2 with
            pending := none }, suggestionsObtained body) := by
      rw [finishReply, if_pos hpend]
    simp only [runFinishes, hfirst, hsecond, hl]

/-- Witness for C6 on a concrete client: the first reply's completion is
ignored, the second's delivers the single notification. -/
theorem c6_second_request_cancels_first_witness :
    runFinishes
      (requestSuggestions
        (requestSuggestions
          { engine := { mkEngine with suggestionsUrlTemplate := "http://s/" }
            hasNAM := true, pending := none, nextId := 0 } "a") "b")
      [(0, "[\"q\",[\"x\"]]"), (1, "[\"q\",[\"x\"]]")] = [(1, ["x"])] :=
  (c6_second_request_cancels_first
    { engine := { mkEngine with suggestionsUrlTemplate := "http://s/" }
      hasNAM := true, pending := none, nextId := 0 } "a" "b"
    (by decide) (by decide) (by decide) rfl).2.2.2.2.2
    "[\"q\",[\"x\"]]" ["x"] (by decide)

/-- Every element of a joined list appears literally in the join. -/
theorem joinAmp_mem_part :
    ∀ (l : List String) (s : String), s ∈ l → s.data <:+: (joinAmp l).data := by
  intro l
  induction l with
  | nil => intro s h; exact absurd h (List.not_mem_nil s)
  | cons x rest ih =>
    intro s h
    cases rest with
    | nil =>
      have hx : s = x := by simpa using h
      subst hx
      exact List.infix_refl _
    | cons y t =>
      have hj : joinAmp (x :: y :: t) = x ++ "&" ++ joinAmp (y :: t) := rfl
      rw [hj]
      rcases List.mem_cons.mp h with h1 | h1
      · subst h1
        rw [String.data_append, String.data_append]
        exact ((List.prefix_append s.data "&".data).trans
          (List.prefix_append _ _)).isInfix
      · rcases ih s h1 with ⟨u, v, hw⟩
        rw [String.data_append, String.data_append]
        exact ⟨(x.data ++ "&".data) ++ u, v, by rw [← hw]; simp⟩

/-- C10: for POST-method records the body handed to the transport (for
suggestions) or to the delegate (for search) is exactly the stored pairs
serialized as `key=value` joined with `&` — a term-independent serialization
with no template expansion and no percent-encoding, in which every stored
pair appears literally. -/
theorem c10_post_body (lang app : String) (e : OpenSearchEngine)
    (term : String) :
    (e.suggestionsMethod = "post" → term ≠ "" → providesSuggestions e = true →
      suggestionsTransportRequest lang app e term =
        some (suggestionsUrl lang app e term, suggestionsPostData e)) ∧
    suggestionsPostData e =
      joinAmp (e.suggestionsParameters.map (fun p => p.1 ++ "=" ++ p.2)) ∧
    (∀ p ∈ e.suggestionsParameters,
      (p.1 ++ "=" ++ p.2).data <:+: (suggestionsPostData e).data) ∧
    (e.searchMethod = "post" → term ≠ "" →
      requestSearchResults lang app e true term =
        some (searchUrl lang app e term, "post", searchPostData e)) ∧
    searchPostData e =
      joinAmp (e.searchParameters.map (fun p => p.1 ++ "=" ++ p.2)) ∧
    (∀ p ∈ e.searchParameters,
      (p.1 ++ "=" ++ p.2).data <:+: (searchPostData e).data) := by
  refine ⟨?_, rfl, ?_, ?_, rfl, ?_⟩
  · intro hm ht hp
    have hne : ¬(e.suggestionsMethod = "get") := by rw [hm]; decide
    simp [suggestionsTransportRequest, ht, hp, hne]
  · intro p hp
    exact joinAmp_mem_part _ _ (List.mem_map_of_mem _ hp)
  · intro hm ht
    simp [requestSearchResults, ht, hm]
  · intro p hp
    exact joinAmp_mem_part _ _ (List.mem_map_of_mem _ hp)

/-- Witness for C10 on a concrete engine: the body is the literal
serialization; `q={searchTerms}` appears literally, unexpanded. -/
theorem c10_post_body_witness :
    suggestionsTransportRequest "en_US" "App"
      { mkEngine with
        suggestionsUrlTemplate := "http://s/"
        suggestionsParameters := [("q", "{searchTerms}")]
        suggestionsMethod := "post" } "term" =
      some (some ⟨"http://s/", []⟩, "q={searchTerms}") ∧
    "q={searchTerms}".data <:+:
      (suggestionsPostData
        { mkEngine with
          suggestionsUrlTemplate := "http://s/"
          suggestionsParameters := [("q", "{searchTerms}")]
          suggestionsMethod := "post" }).data := by
  constructor
  · have h := (c10_post_body "en_US" "App"
      { mkEngine with
        suggestionsUrlTemplate := "http://s/"
        suggestionsParameters := [("q", "{searchTerms}")]
        suggestionsMethod := "post" } "term").1 rfl (by decide) (by decide)
    rw [h]; decide
  · exact (c10_post_body "en_US" "App"
      { mkEngine with
        suggestionsUrlTemplate := "http://s/"
        suggestionsParameters := [("q", "{searchTerms}")]
        suggestionsMethod := "post" } "term").2.2.1
      ("q", "{searchTerms}") (by decide)

end QOpenSearch
